import Mathlib

/-!
Verification of the meal-planning agent's orchestration and session/memory
core, as a shallow embedding of the Python sources.

Modelling conventions:
* Python `dict`s (insertion-ordered, unique keys) are association lists
  `List (String × α)` with `lookupKV` / `insertKV` / `eraseKV` mirroring
  `d.get`, `d[k] = v` and `del d[k]`.
* `datetime.now()` is an explicit `now : Nat` argument per call; timestamps
  and the session timeout live in the same abstract time unit.
* `random.choice xs` (process-global RNG) is `rchoice xs (pick k)` where
  `pick : Nat → Nat` is the RNG oracle and `k` is the index of the choice
  call within one generator invocation.
* Per-meal recipe lookup (thread pool + per-future timeout in
  `RecipeFinderAgent.find_recipes_for_meals`) is an oracle
  `lookup : String → Option Recipe`: `none` models a timeout/error for a
  meal, `some r` a successful lookup.  The lookup is a function of the meal
  name because the search query is exactly the meal name.
* Disk persistence (`save_to_disk` / `load_from_disk`) is I/O and is not
  modelled; the in-memory state is what the claims speak about.
-/

namespace MealPlanning



/-- Dynamic values stored in preference maps, mirroring the `Any`-typed
`value` fields the Python code actually writes: plain strings (dietary
restrictions), numbers (budgets) and lists of strings (cuisine
preferences). -/
inductive Value where
  | str : String → Value
  | num : Int → Value
  | listV : List String → Value

deriving DecidableEq, Repr

/-- `d.get k` on a Python dict modelled as an association list. -/
def lookupKV (m : List (String × α)) (k : String) : Option α :=
  match m with
  | [] => none
  | (k', v) :: rest => if k' = k then some v else lookupKV rest k

/-- `d[k] = v` on a Python dict: overwrite in place if the key is present,
append otherwise (dicts preserve first-insertion order). -/
def insertKV (m : List (String × α)) (k : String) (v : α) : List (String × α) :=
  match m with
  | [] => [(k, v)]
  | (k', v') :: rest => if k' = k then (k', v) :: rest else (k', v') :: insertKV rest k v

/-- `del d[k]` on a Python dict. -/
def eraseKV (m : List (String × α)) (k : String) : List (String × α) :=
  match m with
  | [] => []
  | (k', v) :: rest => if k' = k then rest else (k', v) :: eraseKV rest k

/-! ## Meal planner (`src/agents/meal_planner.py`) -/

/-- One meal entry of a plan, as produced by
`MealPlannerAgent._generate_mock_meal_plan`. -/
structure Meal where
  day : Nat
  meal_type : String
  name : String
  description : String

deriving DecidableEq, Repr

/-- The planner's result dictionary. -/
structure MealPlan where
  meals : List Meal
  summary : String
  days : Nat
  dietary_restrictions : List String
  preferences : List String

deriving DecidableEq, Repr

/-- `meal_types = ["breakfast", "lunch", "dinner"]` in
`_generate_mock_meal_plan`. -/
def mealTypes : List String := ["breakfast", "lunch", "dinner"]

/-- The `meal_options[mt]["default"]` table. -/
def defaultOptions : String → List String
  | "breakfast" => ["Oatmeal with berries", "Scrambled eggs with toast",
      "Greek yogurt parfait", "Avocado toast"]
  | "lunch" => ["Caesar salad", "Chicken wrap", "Vegetable stir-fry", "Quinoa bowl"]
  | "dinner" => ["Pasta with marinara", "Grilled chicken with vegetables",
      "Tofu curry", "Salmon with rice"]
  | _ => []

/-- The `meal_options[mt]["vegetarian"]` table. -/
def vegetarianOptions : String → List String
  | "breakfast" => ["Oatmeal with berries", "Scrambled eggs with toast",
      "Greek yogurt parfait", "Avocado toast", "Pancakes with fruit"]
  | "lunch" => ["Caesar salad", "Vegetable stir-fry", "Quinoa bowl",
      "Caprese sandwich", "Lentil soup"]
  | "dinner" => ["Pasta with marinara", "Tofu curry", "Mushroom risotto",
      "Vegetable lasagna", "Stuffed peppers"]
  | _ => []

/-- The `meal_options[mt]["vegan"]` table. -/
def veganOptions : String → List String
  | "breakfast" => ["Oatmeal with berries", "Avocado toast", "Smoothie bowl",
      "Chia pudding", "Fruit salad"]
  | "lunch" => ["Caesar salad (vegan)", "Vegetable stir-fry", "Quinoa bowl",
      "Hummus wrap", "Lentil soup"]
  | "dinner" => ["Pasta with marinara", "Tofu curry", "Lentil curry",
      "Vegetable stir-fry", "Chickpea curry"]
  | _ => []

/-- The `selected_meals` computation of `_generate_mock_meal_plan`:
vegan wins over vegetarian, anything else falls back to the default table;
an empty restriction list (`None` or `[]` in Python, both falsy) also uses
the default table. -/
def selected_meals (dietary_restrictions : List String) (mt : String) : List String :=
  if dietary_restrictions ≠ [] then
    if "vegan" ∈ dietary_restrictions then veganOptions mt
    else if "vegetarian" ∈ dietary_restrictions then vegetarianOptions mt
    else defaultOptions mt
  else defaultOptions mt

/-- `random.choice xs` given the RNG oracle's output `i` for this call. -/
def rchoice (xs : List String) (i : Nat) : String :=
  xs.getD (i % xs.length) ""

/-- The `(day, meal_type)` slots visited by the nested
`for day in range(1, days + 1): for meal_type in meal_types:` loop, in
order. -/
def meal_slots (days : Nat) : List (Nat × String) :=
  (List.range days).flatMap (fun d => mealTypes.map (fun mt => (d + 1, mt)))

/-- `MealPlannerAgent._generate_mock_meal_plan`.  `pick` is the oracle for
the process-global `random` state: the `k`-th `random.choice` call of this
invocation draws `pick k`. -/
def generate_mock_meal_plan (days : Nat) (dietary_restrictions preferences : List String)
    (pick : Nat → Nat) : MealPlan :=
  let meals := (meal_slots days).mapIdx (fun k slot =>
    let name := rchoice (selected_meals dietary_restrictions slot.2) (pick k)
    { day := slot.1
      meal_type := slot.2
      name := name
      description := "A delicious " ++ name.toLower ++ " for " ++ slot.2 : Meal })
  { meals := meals
    summary := "Generated " ++ toString days ++ "-day meal plan with " ++
      toString meals.length ++ " meals"
    days := days
    dietary_restrictions := dietary_restrictions
    preferences := preferences }

/-! ## Memory bank (`src/memory/memory_bank.py`)

`save_to_disk` only serializes the in-memory state (I/O, not modelled), so
every operation below is the in-memory effect of the corresponding method.
-/

/-- `UserPreference` pydantic model. -/
structure UserPreference where
  user_id : String
  preference_type : String
  value : Value
  created_at : Nat
  last_updated : Nat

deriving DecidableEq, Repr

/-- `MealHistory` pydantic model. -/
structure MealHistory where
  user_id : String
  meal_plan : MealPlan
  date : Nat
  feedback : Option String

deriving DecidableEq, Repr

/-- The `MemoryBank`'s two in-memory dicts, keyed by user id. -/
structure MemoryBank where
  preferences : List (String × List UserPreference)
  meal_history : List (String × List MealHistory)

deriving DecidableEq, Repr

/-- A freshly constructed bank with no (or unreadable) durable state. -/
def MemoryBank.empty : MemoryBank := ⟨[], []⟩

/-- The stored preference list of one user (`self.preferences.get(user_id, [])`). -/
def userPrefs (b : MemoryBank) (uid : String) : List UserPreference :=
  (lookupKV b.preferences uid).getD []

/-- The stored history list of one user (`self.meal_history.get(user_id, [])`). -/
def userHistory (b : MemoryBank) (uid : String) : List MealHistory :=
  (lookupKV b.meal_history uid).getD []

/-- In-place update of the first entry of the given type, mirroring the
mutation of `existing` found by `next(...)` in `add_preference`. -/
def updateFirst (prefs : List UserPreference) (ptype : String) (v : Value) (now : Nat) :
    List UserPreference :=
  match prefs with
  | [] => []
  | p :: rest =>
    if p.preference_type = ptype then
      { p with value := v, last_updated := now } :: rest
    else
      p :: updateFirst rest ptype v now

/-- `MemoryBank.add_preference`. -/
def add_preference (b : MemoryBank) (now : Nat) (uid ptype : String) (v : Value) :
    MemoryBank :=
  let prefs := userPrefs b uid
  let prefs' :=
    if prefs.any (fun p => p.preference_type = ptype) then
      updateFirst prefs ptype v now
    else
      prefs ++ [{ user_id := uid, preference_type := ptype, value := v,
                  created_at := now, last_updated := now }]
  { b with preferences := insertKV b.preferences uid prefs' }

/-- `MemoryBank.get_preferences`: the dict comprehension
`{p.preference_type: p.value for p in prefs}` (later duplicates would win). -/
def get_preferences (b : MemoryBank) (uid : String) : List (String × Value) :=
  (userPrefs b uid).foldl (fun acc p => insertKV acc p.preference_type p.value) []

/-- `MemoryBank.get_preference`: first entry of the given type, if any. -/
def get_preference (b : MemoryBank) (uid ptype : String) : Option Value :=
  ((userPrefs b uid).find? (fun p => p.preference_type = ptype)).map (fun p => p.value)

/-- `MemoryBank.add_meal_history`: append, then keep only the last 50
entries (`history[-50:]`) when the list exceeds 50. -/
def add_meal_history (b : MemoryBank) (now : Nat) (uid : String) (plan : MealPlan)
    (feedback : Option String) : MemoryBank :=
  let hist := userHistory b uid ++
    [{ user_id := uid, meal_plan := plan, date := now, feedback := feedback }]
  let hist' := if hist.length > 50 then hist.drop (hist.length - 50) else hist
  { b with meal_history := insertKV b.meal_history uid hist' }

/-- `MemoryBank.get_meal_history`: `history[-limit:] if limit else history`. -/
def get_meal_history (b : MemoryBank) (uid : String) (limit : Nat) : List MealHistory :=
  let hist := userHistory b uid
  if limit ≠ 0 then hist.drop (hist.length - limit) else hist

/-- The summarized entries of `get_user_context`'s `recent_meals`. -/
structure RecentMeal where
  date : Nat
  meals : List Meal
  feedback : Option String

deriving DecidableEq, Repr

/-- `get_user_context`'s result shape. -/
structure UserContext where
  preferences : List (String × Value)
  recent_meals : List RecentMeal

deriving DecidableEq, Repr

/-- `MemoryBank.get_user_context`. -/
def get_user_context (b : MemoryBank) (uid : String) : UserContext :=
  { preferences := get_preferences b uid
    recent_meals := (get_meal_history b uid 5).map (fun h =>
      { date := h.date, meals := h.meal_plan.meals, feedback := h.feedback }) }

/-- The §3 invariant: at most one preference entry per (user, type). -/
def typesNodup (b : MemoryBank) : Prop :=
  ∀ u, ((userPrefs b u).map (fun p => p.preference_type)).Nodup

def applyCalls (b : MemoryBank) (calls : List (Nat × String × String × Value)) : MemoryBank :=
  calls.foldl (fun b c => add_preference b c.1 c.2.1 c.2.2.1 c.2.2.2) b

/-- The value assigned to a preference type by a dict comprehension over the
entry list: the value of the *last* entry of that type, if any. -/
def lastValue (entries : List UserPreference) (t : String) : Option Value :=
  entries.foldl (fun acc p => if p.preference_type = t then some p.value else acc) none

/-- The history entry `add_meal_history` constructs. -/
def histEntryOf (uid : String) (plan : MealPlan) (now : Nat) (fb : Option String) :
    MealHistory :=
  { user_id := uid, meal_plan := plan, date := now, feedback := fb }

/-- Witness for C4 at a concrete full history: a bank whose user "u" holds
exactly 50 entries, where the 51st add evicts the oldest. -/
def histEntry : MealHistory :=
  { user_id := "u"
    meal_plan := { meals := [], summary := "s", days := 0,
                   dietary_restrictions := [], preferences := [] }
    date := 0
    feedback := none }

def fullBank : MemoryBank :=
  { preferences := [], meal_history := [("u", List.replicate 50 histEntry)] }

def planW : MealPlan :=
  { meals := [], summary := "w", days := 0, dietary_restrictions := [], preferences := [] }

/-- A sequence of `add_preference` writes for one user, as `(now, type, value)`. -/
def applyPrefWrites (b : MemoryBank) (uid : String)
    (writes : List (Nat × String × Value)) : MemoryBank :=
  writes.foldl (fun b w => add_preference b w.1 uid w.2.1 w.2.2) b

/-- The last value a sequence of writes assigns to a preference type. -/
def lastWrite (writes : List (Nat × String × Value)) (t : String) : Option Value :=
  (writes.reverse.find? (fun w => w.2.1 = t)).map (fun w => w.2.2)

/-! ## Recipe finder (`src/agents/recipe_finder.py`) -/

/-- A recipe dictionary as produced by `RecipeSearchTool`. -/
structure Recipe where
  id : Nat
  title : String
  image : String
  ready_in_minutes : Nat
  servings : Nat
  source_url : String
  summary : String

deriving DecidableEq, Repr

/-- The aggregate returned by `RecipeFinderAgent.find_recipes_for_meals`. -/
structure RecipeResults where
  meal_recipes : List (String × Option Recipe)
  total_meals : Nat
  recipes_found : Nat

deriving DecidableEq, Repr

/-- `RecipeFinderAgent.find_recipes_for_meals`.  `lookup` is the per-meal
outcome oracle: `process_meal` queries the search tool with the meal *name*
and `future.result(timeout=5)` absorbs a timeout or error into `None`, so
each meal's final entry is a function of its name; the dict
`meal_recipes[meal_name] = recipe` collapses duplicate names. -/
def find_recipes_for_meals (meals : List Meal) (lookup : String → Option Recipe) :
    RecipeResults :=
  let meal_recipes := meals.foldl (fun acc m => insertKV acc m.name (lookup m.name)) []
  { meal_recipes := meal_recipes
    total_meals := meals.length
    recipes_found := (meal_recipes.filter (fun p => p.2.isSome)).length }

/-! ## Session service (`src/memory/session_service.py`) -/

/-- The optimized shopping list handed back by the list-builder worker
(internal algorithm out of scope; only its shape crosses the boundary). -/
structure ShoppingList where
  items : List String
  total_items : Nat

deriving DecidableEq, Repr

/-- The nutrition estimator's result shape (internals out of scope). -/
structure NutritionAnalysis where
  total_calories : Int
  total_protein_g : Int
  total_carbs_g : Int
  total_fat_g : Int
  meals_analyzed : Nat
  recommendations : List String

deriving DecidableEq, Repr

/-- The values the orchestrator ever stores into a session's `context`
dict. -/
inductive CtxVal where
  | userCtx : UserContext → CtxVal
  | prefMap : List (String × Value) → CtxVal
  | mealPlanV : MealPlan → CtxVal
  | recipesV : RecipeResults → CtxVal
  | shoppingV : Option ShoppingList → CtxVal

deriving DecidableEq, Repr

/-- `Session` pydantic model. -/
structure Session where
  session_id : String
  user_id : String
  created_at : Nat
  last_accessed : Nat
  context : List (String × CtxVal)
  preferences : List (String × Value)

deriving DecidableEq, Repr

/-- `InMemorySessionService` state: the sessions dict and the configured
timeout (one abstract time unit per minute). -/
structure SessionService where
  sessions : List (String × Session)
  session_timeout : Nat

deriving DecidableEq, Repr

/-- `InMemorySessionService.create_session`; `sid` is the freshly drawn
opaque `uuid4` token, supplied by the environment. -/
def SessionService.create_session (svc : SessionService) (now : Nat) (sid uid : String)
    (initial_context : List (String × CtxVal)) : Session × SessionService :=
  let s : Session :=
    { session_id := sid, user_id := uid, created_at := now, last_accessed := now,
      context := initial_context, preferences := [] }
  (s, { svc with sessions := insertKV svc.sessions sid s })

/-- `InMemorySessionService.delete_session`. -/
def SessionService.delete_session (svc : SessionService) (sid : String) : Bool × SessionService :=
  match lookupKV svc.sessions sid with
  | some _ => (true, { svc with sessions := eraseKV svc.sessions sid })
  | none => (false, svc)

/-- `InMemorySessionService.get_session`: evict and report absent when the
idle time strictly exceeds the timeout, otherwise refresh `last_accessed`
and return the session. -/
def SessionService.get_session (svc : SessionService) (now : Nat) (sid : String) :
    Option Session × SessionService :=
  match lookupKV svc.sessions sid with
  | none => (none, svc)
  | some s =>
    if now - s.last_accessed > svc.session_timeout then
      (none, (SessionService.delete_session svc sid).2)
    else
      let s' := { s with last_accessed := now }
      (some s', { svc with sessions := insertKV svc.sessions sid s' })

/-- `InMemorySessionService.update_session_context`. -/
def SessionService.update_session_context (svc : SessionService) (now : Nat) (sid : String)
    (context_updates : List (String × CtxVal)) : Bool × SessionService :=
  match SessionService.get_session svc now sid with
  | (none, svc') => (false, svc')
  | (some s, svc') =>
    let s' := { s with
      context := context_updates.foldl (fun c kv => insertKV c kv.1 kv.2) s.context
      last_accessed := now }
    (true, { svc' with sessions := insertKV svc'.sessions sid s' })

/-- `InMemorySessionService.get_user_sessions`: a pure read over the
sessions dict (paired with the unchanged state to expose its frame). -/
def SessionService.get_user_sessions (svc : SessionService) (uid : String) :
    List Session × SessionService :=
  ((svc.sessions.map Prod.snd).filter (fun s => s.user_id = uid), svc)

def sessA : Session :=
  { session_id := "s1", user_id := "u1", created_at := 0, last_accessed := 0,
    context := [], preferences := [] }

def svcLive : SessionService := { sessions := [("s1", sessA)], session_timeout := 60 }

/-- `sessA` as refreshed by a `SessionService.get_session` at time 30. -/
def sessA30 : Session := { sessA with last_accessed := 30 }

/-- Two meals sharing one name, for the duplicate-name scenario. -/
def mealDup1 : Meal :=
  { day := 1, meal_type := "breakfast", name := "Oatmeal with berries", description := "d" }

def mealDup2 : Meal :=
  { day := 2, meal_type := "breakfast", name := "Oatmeal with berries", description := "d" }

def recipeA : Recipe :=
  { id := 1, title := "Delicious Oatmeal With Berries", image := "https://via.placeholder.com/300",
    ready_in_minutes := 30, servings := 4, source_url := "https://example.com/recipe1",
    summary := "A tasty oatmeal with berries recipe." }

def mealC5a : Meal := { day := 1, meal_type := "breakfast", name := "A", description := "d" }

def mealC5b : Meal := { day := 1, meal_type := "lunch", name := "B", description := "d" }

def lookupC5 : String → Option Recipe := fun n => if n = "A" then some recipeA else none

/-! ## Orchestrator (`src/agents/orchestrator.py`)

The planner is modelled by its locally generated fallback
(`_generate_mock_meal_plan`): with no `GEMINI_API_KEY`, and likewise on LLM
timeout, failure or unparseable output, `MealPlannerAgent.plan_meals`
returns exactly that plan (the LLM itself is an out-of-scope external
collaborator).  The list-builder and nutrition workers are passed as
oracles producing their documented result shapes; the orchestrator only
forwards their outputs.  The `budget` argument feeds the LLM prompt only
and is dropped by the mock path, so it is omitted here.
-/

/-- The orchestrator's combined mutable state. -/
structure OrchestratorState where
  session_service : SessionService
  memory_bank : MemoryBank

deriving DecidableEq, Repr

/-- State right after `OrchestratorAgent.__init__` (default 60-minute
session timeout, empty or unreadable durable store). -/
def OrchestratorState.init : OrchestratorState :=
  { session_service := { sessions := [], session_timeout := 60 }
    memory_bank := MemoryBank.empty }

/-- The workflow result dict returned by `OrchestratorAgent.plan_meals`. -/
structure WorkflowResult where
  meal_plan : MealPlan
  recipes : RecipeResults
  shopping_list : Option ShoppingList
  nutrition : Option NutritionAnalysis
  session_id : String

deriving DecidableEq, Repr

deriving instance DecidableEq for Except

/-- `OrchestratorAgent.create_session`; `sid` is the fresh `uuid4` token. -/
def Orchestrator.create_session (st : OrchestratorState) (now : Nat) (sid uid : String)
    (initial_preferences : List (String × Value)) : String × OrchestratorState :=
  let uc := get_user_context st.memory_bank uid
  let uc := { uc with
    preferences := initial_preferences.foldl (fun m kv => insertKV m kv.1 kv.2) uc.preferences }
  let res := SessionService.create_session st.session_service now sid uid
    [("user_context", CtxVal.userCtx uc), ("preferences", CtxVal.prefMap uc.preferences)]
  (res.1.session_id, { st with session_service := res.2 })

/-- `OrchestratorAgent.plan_meals`, the full workflow.  `pick` is the
planner's RNG oracle, `lookup` the per-meal recipe outcome, `shopping` and
`nutrition` the two auxiliary workers.  An absent or expired session raises
`ValueError(f"Session {session_id} not found")`, re-raised to the caller,
before any workflow step runs. -/
def Orchestrator.plan_meals (st : OrchestratorState) (now : Nat) (pick : Nat → Nat)
    (lookup : String → Option Recipe)
    (shopping : List (String × Option Recipe) → ShoppingList)
    (nutrition : List (String × Recipe) → NutritionAnalysis)
    (session_id : String) (days : Nat) (dietary_restrictions preferences : List String)
    (include_nutrition include_shopping_list : Bool) :
    Except String WorkflowResult × OrchestratorState :=
  match SessionService.get_session st.session_service now session_id with
  | (none, svc₁) =>
      (Except.error ("Session " ++ session_id ++ " not found"),
       { st with session_service := svc₁ })
  | (some session, svc₁) =>
      let meal_plan := generate_mock_meal_plan days dietary_restrictions preferences pick
      let recipe_results := find_recipes_for_meals meal_plan.meals lookup
      let shopping_list :=
        if include_shopping_list then some (shopping recipe_results.meal_recipes) else none
      let meals_with_recipes := meal_plan.meals.filterMap (fun m =>
        match lookupKV recipe_results.meal_recipes m.name with
        | some (some r) => some (m.name, r)
        | _ => none)
      let nutrition_analysis :=
        if include_nutrition then some (nutrition meals_with_recipes) else none
      let svc₂ := (SessionService.update_session_context svc₁ now session_id
        [("last_meal_plan", CtxVal.mealPlanV meal_plan),
         ("last_recipes", CtxVal.recipesV recipe_results),
         ("last_shopping_list", CtxVal.shoppingV shopping_list)]).2
      let bank₁ := add_meal_history st.memory_bank now session.user_id meal_plan none
      let bank₂ := dietary_restrictions.foldl
        (fun b r => add_preference b now session.user_id "dietary_restriction" (Value.str r))
        bank₁
      let bank₃ :=
        if preferences ≠ [] then
          add_preference bank₂ now session.user_id "cuisine_preferences"
            (Value.listV preferences)
        else bank₂
      (Except.ok
        { meal_plan := meal_plan
          recipes := recipe_results
          shopping_list := shopping_list
          nutrition := nutrition_analysis
          session_id := session_id },
       { session_service := svc₂, memory_bank := bank₃ })

/-- Trivial worker oracles used in concrete runs. -/
def pick0 : Nat → Nat := fun _ => 0

def lookup0 : String → Option Recipe := fun _ => none

def shopping0 : List (String × Option Recipe) → ShoppingList :=
  fun _ => { items := [], total_items := 0 }

def nutrition0 : List (String × Recipe) → NutritionAnalysis :=
  fun _ => { total_calories := 0, total_protein_g := 0, total_carbs_g := 0,
             total_fat_g := 0, meals_analyzed := 0, recommendations := [] }

/-- Orchestrator state holding `svcLive`'s single live-at-time-10 session. -/
def stLive : OrchestratorState :=
  { session_service := svcLive, memory_bank := MemoryBank.empty }

def sessA10 : Session := { sessA with last_accessed := 10 }

/-- The C7 scenario's state: a fresh orchestrator (empty preference store)
after creating session "s1" for user "u1" at time 0. -/
def stC7 : OrchestratorState :=
  (Orchestrator.create_session OrchestratorState.init 0 "s1" "u1" []).2

def stC9 : OrchestratorState := stLive

@[simp] theorem lookupKV_nil (k : String) : lookupKV ([] : List (String × α)) k = none := rfl

@[simp] theorem lookupKV_cons (k' k : String) (v : α) (rest : List (String × α)) :
    lookupKV ((k', v) :: rest) k = if k' = k then some v else lookupKV rest k := rfl

theorem lookupKV_insertKV_self (m : List (String × α)) (k : String) (v : α) :
    lookupKV (insertKV m k v) k = some v := by
  induction m with
  | nil => simp [insertKV]
  | cons h t ih =>
    obtain ⟨k', v'⟩ := h
    by_cases hk : k' = k <;> simp [insertKV, hk, ih]

theorem lookupKV_insertKV_ne (m : List (String × α)) (k k' : String) (v : α) (h : k' ≠ k) :
    lookupKV (insertKV m k v) k' = lookupKV m k' := by
  induction m with
  | nil => simp [insertKV, lookupKV, Ne.symm h]
  | cons hd t ih =>
    obtain ⟨k₀, v₀⟩ := hd
    by_cases hk : k₀ = k
    · subst hk
      simp [insertKV, lookupKV, Ne.symm h]
    · simp [insertKV, hk, lookupKV, ih]

theorem lookupKV_eraseKV_ne (m : List (String × α)) (k k' : String) (h : k' ≠ k) :
    lookupKV (eraseKV m k) k' = lookupKV m k' := by
  induction m with
  | nil => simp [eraseKV]
  | cons hd t ih =>
    obtain ⟨k₀, v₀⟩ := hd
    by_cases hk : k₀ = k
    · subst hk
      simp [eraseKV, lookupKV, Ne.symm h]
    · simp [eraseKV, hk, lookupKV, ih]

/-- If the key is absent, a dict insert appends a fresh entry at the end. -/
theorem insertKV_of_not_mem (m : List (String × α)) (k : String) (v : α)
    (h : lookupKV m k = none) : insertKV m k v = m ++ [(k, v)] := by
  induction m with
  | nil => simp [insertKV]
  | cons hd t ih =>
    obtain ⟨k₀, v₀⟩ := hd
    by_cases hk : k₀ = k
    · simp [hk] at h
    · simp [lookupKV, hk] at h
      simp [insertKV, hk, ih h]

theorem meal_slots_succ (n : Nat) :
    meal_slots (n + 1) =
      meal_slots n ++ [(n + 1, "breakfast"), (n + 1, "lunch"), (n + 1, "dinner")] := by
  simp [meal_slots, List.range_succ, mealTypes]

theorem meal_slots_length (days : Nat) : (meal_slots days).length = 3 * days := by
  induction days with
  | zero => rfl
  | succ n ih => simp [meal_slots_succ, ih]; omega

theorem meal_slots_mem (days : Nat) :
    ∀ s ∈ meal_slots days, 1 ≤ s.1 ∧ s.1 ≤ days ∧ s.2 ∈ mealTypes := by
  intro s hs
  simp only [meal_slots, List.mem_flatMap, List.mem_map, List.mem_range] at hs
  obtain ⟨d, hd, mt, hmt, rfl⟩ := hs
  exact ⟨by omega, by omega, hmt⟩

theorem map_mapIdx_proj (l : List (Nat × String)) (f : Nat → (Nat × String) → Meal)
    (hf : ∀ k s, ((f k s).day, (f k s).meal_type) = s) :
    (l.mapIdx f).map (fun m => (m.day, m.meal_type)) = l := by
  rw [List.mapIdx_eq_enum_map, List.map_map]
  have h : ((fun m => (m.day, m.meal_type)) ∘ Function.uncurry f) = Prod.snd := by
    funext q
    exact hf q.1 q.2
  rw [h, List.enum_map_snd]

/-- The `(day, meal_type)` projection of the generated meals is exactly the
loop's slot sequence, whatever the RNG does. -/
theorem generate_mock_meal_plan_proj (days : Nat) (r p : List String) (pick : Nat → Nat) :
    (generate_mock_meal_plan days r p pick).meals.map (fun m => (m.day, m.meal_type)) =
      meal_slots days := by
  exact map_mapIdx_proj _ _ (fun k s => rfl)

theorem meal_slots_countP_zero (days d : Nat) (mt : String) (hd : days < d) :
    (meal_slots days).countP (fun s => s.1 == d && s.2 == mt) = 0 := by
  rw [List.countP_eq_zero]
  intro s hs
  have hm := meal_slots_mem days s hs
  simp only [Bool.and_eq_true, beq_iff_eq, not_and]
  intro h1
  omega

theorem meal_slots_countP_one (days d : Nat) (mt : String) (h1 : 1 ≤ d) (h2 : d ≤ days)
    (hmt : mt ∈ mealTypes) :
    (meal_slots days).countP (fun s => s.1 == d && s.2 == mt) = 1 := by
  induction days with
  | zero => omega
  | succ n ih =>
    rw [meal_slots_succ, List.countP_append]
    by_cases hdn : d ≤ n
    · rw [ih hdn]
      have hne : ¬ (n + 1 = d) := by omega
      simp [List.countP_cons, hne]
    · have hdd : d = n + 1 := by omega
      subst hdd
      rw [meal_slots_countP_zero n _ _ (by omega)]
      simp only [mealTypes, List.mem_cons, List.not_mem_nil, or_false] at hmt
      rcases hmt with rfl | rfl | rfl <;> simp +decide [List.countP_cons]

/-- Shape of the planner's locally generated (mock) plan: `3 × days` meals,
day numbers in `[1, days]`, and exactly one meal of each of the three types
per day — independent of the RNG oracle. -/
theorem generate_mock_meal_plan_spec (days : Nat) (r p : List String) (pick : Nat → Nat) :
    (generate_mock_meal_plan days r p pick).meals.length = 3 * days ∧
    (∀ m ∈ (generate_mock_meal_plan days r p pick).meals, 1 ≤ m.day ∧ m.day ≤ days) ∧
    (∀ d, 1 ≤ d → d ≤ days → ∀ mt ∈ mealTypes,
      (generate_mock_meal_plan days r p pick).meals.countP
        (fun m => m.day == d && m.meal_type == mt) = 1) := by
  have hproj := generate_mock_meal_plan_proj days r p pick
  refine ⟨?_, ?_, ?_⟩
  · have := congrArg List.length hproj
    simpa [meal_slots_length] using this
  · intro m hm
    have : (m.day, m.meal_type) ∈ meal_slots days := by
      rw [← hproj]
      exact List.mem_map_of_mem _ hm
    have hb := meal_slots_mem days _ this
    exact ⟨hb.1, hb.2.1⟩
  · intro d hd1 hd2 mt hmt
    have hcount := meal_slots_countP_one days d mt hd1 hd2 hmt
    rw [← hproj, List.countP_map] at hcount
    exact hcount

/-! ### Memory-bank lemmas -/

theorem updateFirst_map_type (prefs : List UserPreference) (t : String) (v : Value) (now : Nat) :
    (updateFirst prefs t v now).map (fun p => p.preference_type) =
      prefs.map (fun p => p.preference_type) := by
  induction prefs with
  | nil => rfl
  | cons p rest ih =>
    by_cases h : p.preference_type = t <;> simp [updateFirst, h, ih]

theorem userPrefs_add_self (b : MemoryBank) (now : Nat) (uid t : String) (v : Value) :
    userPrefs (add_preference b now uid t v) uid =
      if (userPrefs b uid).any (fun p => p.preference_type = t) then
        updateFirst (userPrefs b uid) t v now
      else
        userPrefs b uid ++ [{ user_id := uid, preference_type := t, value := v,
                              created_at := now, last_updated := now }] := by
  show (lookupKV (insertKV b.preferences uid _) uid).getD [] = _
  rw [lookupKV_insertKV_self]
  rfl

theorem userPrefs_add_other (b : MemoryBank) (now : Nat) (uid t : String) (v : Value)
    (u : String) (h : u ≠ uid) :
    userPrefs (add_preference b now uid t v) u = userPrefs b u := by
  show (lookupKV (insertKV b.preferences uid _) u).getD [] = _
  rw [lookupKV_insertKV_ne _ _ _ _ h]
  rfl

theorem typesNodup_empty : typesNodup MemoryBank.empty := by
  intro u
  simp [userPrefs, MemoryBank.empty]

theorem typesNodup_add (b : MemoryBank) (hb : typesNodup b) (now : Nat) (uid t : String)
    (v : Value) : typesNodup (add_preference b now uid t v) := by
  intro u
  by_cases hu : u = uid
  · subst hu
    rw [userPrefs_add_self]
    by_cases hany : (userPrefs b u).any (fun p => p.preference_type = t) = true
    · rw [if_pos hany, updateFirst_map_type]
      exact hb u
    · rw [if_neg hany, List.map_append]
      simp only [List.any_eq_true, decide_eq_true_eq, not_exists, not_and] at hany
      simp only [List.map_cons, List.map_nil]
      rw [List.nodup_append]
      refine ⟨hb u, List.nodup_singleton _, ?_⟩
      intro x hx hx'
      simp only [List.mem_singleton] at hx'
      subst hx'
      obtain ⟨p, hp, rfl⟩ := List.mem_map.mp hx
      exact hany p hp rfl
  · rw [userPrefs_add_other _ _ _ _ _ _ hu]
    exact hb u

theorem typesNodup_applyCalls_of (calls : List (Nat × String × String × Value))
    (b : MemoryBank) (hb : typesNodup b) : typesNodup (applyCalls b calls) := by
  induction calls generalizing b with
  | nil => exact hb
  | cons c rest ih => exact ih _ (typesNodup_add _ hb _ _ _ _)

theorem foldl_lastValue_seed (entries : List UserPreference) (t : String)
    (seed : Option Value) :
    entries.foldl (fun acc p => if p.preference_type = t then some p.value else acc) seed =
      match lastValue entries t with
      | some v => some v
      | none => seed := by
  induction entries generalizing seed with
  | nil => simp [lastValue]
  | cons p rest ih =>
    rw [List.foldl_cons]
    rw [ih]
    have hcons : lastValue (p :: rest) t =
        match lastValue rest t with
        | some w => some w
        | none => if p.preference_type = t then some p.value else none := by
      unfold lastValue
      rw [List.foldl_cons]
      exact ih _
    rw [hcons]
    cases lastValue rest t <;> by_cases hp : p.preference_type = t <;> simp [hp]

theorem lastValue_cons (p : UserPreference) (l : List UserPreference) (t : String) :
    lastValue (p :: l) t =
      match lastValue l t with
      | some w => some w
      | none => if p.preference_type = t then some p.value else none := by
  unfold lastValue
  rw [List.foldl_cons]
  exact foldl_lastValue_seed l t _

theorem lastValue_eq_none (entries : List UserPreference) (t : String)
    (h : t ∉ entries.map (fun p => p.preference_type)) : lastValue entries t = none := by
  induction entries with
  | nil => rfl
  | cons p rest ih =>
    simp only [List.map_cons, List.mem_cons, not_or] at h
    rw [lastValue_cons, ih h.2]
    simp [Ne.symm h.1]

theorem lastValue_append_single (entries : List UserPreference) (e : UserPreference)
    (t : String) :
    lastValue (entries ++ [e]) t =
      if e.preference_type = t then some e.value else lastValue entries t := by
  unfold lastValue
  rw [List.foldl_append]
  rw [List.foldl_cons, List.foldl_nil]

theorem lastValue_updateFirst_self (entries : List UserPreference) (t : String) (v : Value)
    (now : Nat) (hnd : (entries.map (fun p => p.preference_type)).Nodup)
    (hmem : entries.any (fun p => p.preference_type = t) = true) :
    lastValue (updateFirst entries t v now) t = some v := by
  induction entries with
  | nil => simp at hmem
  | cons p rest ih =>
    simp only [List.map_cons, List.nodup_cons] at hnd
    by_cases hp : p.preference_type = t
    · rw [updateFirst, if_pos hp, lastValue_cons]
      have hnone : lastValue rest t = none := by
        apply lastValue_eq_none
        rw [← hp]
        exact hnd.1
      rw [hnone]
      simp [hp]
    · rw [updateFirst, if_neg hp, lastValue_cons]
      have hrest : rest.any (fun p => p.preference_type = t) = true := by
        simp only [List.any_cons, Bool.or_eq_true, decide_eq_true_eq] at hmem
        rcases hmem with h | h
        · exact absurd h hp
        · exact h
      rw [ih hnd.2 hrest]

theorem lastValue_updateFirst_ne (entries : List UserPreference) (t t' : String) (v : Value)
    (now : Nat) (h : t' ≠ t) :
    lastValue (updateFirst entries t v now) t' = lastValue entries t' := by
  induction entries with
  | nil => rfl
  | cons p rest ih =>
    by_cases hp : p.preference_type = t
    · rw [updateFirst, if_pos hp, lastValue_cons, lastValue_cons]
      have : p.preference_type ≠ t' := by rw [hp]; exact fun hh => h hh.symm
      cases lastValue rest t' <;> simp [this]
    · rw [updateFirst, if_neg hp, lastValue_cons, lastValue_cons, ih]

theorem lookup_foldl_insert (entries : List UserPreference) (acc : List (String × Value))
    (k : String) :
    lookupKV (entries.foldl (fun a p => insertKV a p.preference_type p.value) acc) k =
      match lastValue entries k with
      | some v => some v
      | none => lookupKV acc k := by
  induction entries generalizing acc with
  | nil => simp [lastValue]
  | cons p rest ih =>
    rw [List.foldl_cons, ih, lastValue_cons]
    cases hrest : lastValue rest k
    · by_cases hp : p.preference_type = k
      · subst hp
        rw [lookupKV_insertKV_self]
        simp
      · rw [lookupKV_insertKV_ne _ _ _ _ (fun hh => hp hh.symm)]
        simp [hp]
    · rfl

/-- Reading preferences through the dict comprehension yields, per type, the
value of the last stored entry of that type. -/
theorem lookup_get_preferences (b : MemoryBank) (uid t : String) :
    lookupKV (get_preferences b uid) t = lastValue (userPrefs b uid) t := by
  unfold get_preferences
  rw [lookup_foldl_insert]
  cases lastValue (userPrefs b uid) t <;> rfl

/-! ### Claims C3, C4, C8 -/

/-- C3: after any sequence of `add_preference` calls (starting from the
freshly constructed, empty bank), every user's preference list has pairwise
distinct preference types — a second write to the same type overwrites in
place and never duplicates.  In particular `add_preference(u, "budget", 50)`
then `add_preference(u, "budget", 75)` leaves exactly one "budget" entry,
whose value is 75 (and whose `created_at` is the first write's time while
`last_updated` is the second's). -/
theorem add_preference_no_duplicates :
    (∀ (calls : List (Nat × String × String × Value)) (uid : String),
      ((userPrefs (applyCalls MemoryBank.empty calls) uid).map
        (fun p => p.preference_type)).Nodup) ∧
    (∀ t₁ t₂ : Nat,
      (userPrefs (add_preference (add_preference MemoryBank.empty t₁ "u" "budget"
            (Value.num 50)) t₂ "u" "budget" (Value.num 75)) "u").filter
          (fun p => p.preference_type = "budget") =
        [{ user_id := "u", preference_type := "budget", value := Value.num 75,
           created_at := t₁, last_updated := t₂ }]) := by
  constructor
  · intro calls uid
    exact typesNodup_applyCalls_of calls MemoryBank.empty typesNodup_empty uid
  · intro t₁ t₂
    rfl

/-- C4: `add_meal_history` keeps every user's history at 50 entries or
fewer; a 51st entry evicts the oldest and appends the new entry at the end,
preserving the order of the surviving 50; below the cap it is a plain
append. -/
theorem add_meal_history_cap (b : MemoryBank) (now : Nat) (uid : String) (plan : MealPlan)
    (fb : Option String) :
    (userHistory (add_meal_history b now uid plan fb) uid).length ≤ 50 ∧
    ((userHistory b uid).length = 50 →
      userHistory (add_meal_history b now uid plan fb) uid =
        (userHistory b uid).tail ++ [histEntryOf uid plan now fb]) ∧
    ((userHistory b uid).length < 50 →
      userHistory (add_meal_history b now uid plan fb) uid =
        userHistory b uid ++ [histEntryOf uid plan now fb]) := by
  have hself : userHistory (add_meal_history b now uid plan fb) uid =
      (if (userHistory b uid ++ [histEntryOf uid plan now fb]).length > 50
        then (userHistory b uid ++ [histEntryOf uid plan now fb]).drop
          ((userHistory b uid ++ [histEntryOf uid plan now fb]).length - 50)
        else userHistory b uid ++ [histEntryOf uid plan now fb]) := by
    show (lookupKV (insertKV b.meal_history uid _) uid).getD [] = _
    rw [lookupKV_insertKV_self]
    rfl
  refine ⟨?_, ?_, ?_⟩
  · rw [hself]
    by_cases hlen : (userHistory b uid ++ [histEntryOf uid plan now fb]).length > 50
    · rw [if_pos hlen, List.length_drop]
      omega
    · rw [if_neg hlen]
      omega
  · intro h50
    rw [hself]
    have hlen : (userHistory b uid ++ [histEntryOf uid plan now fb]).length = 51 := by
      simp [h50]
    rw [if_pos (by omega), hlen]
    cases hl : userHistory b uid with
    | nil => rw [hl] at h50; simp at h50
    | cons x xs => simp
  · intro hlt
    rw [hself]
    have hlen : (userHistory b uid ++ [histEntryOf uid plan now fb]).length =
        (userHistory b uid).length + 1 := by simp
    rw [if_neg (by omega)]

theorem add_meal_history_cap_witness :
    (userHistory fullBank "u").length = 50 ∧
    userHistory (add_meal_history fullBank 7 "u" planW none) "u" =
      (userHistory fullBank "u").tail ++ [histEntryOf "u" planW 7 none] :=
  ⟨by simp [fullBank, userHistory, lookupKV],
   (add_meal_history_cap fullBank 7 "u" planW none).2.1
     (by simp [fullBank, userHistory, lookupKV])⟩

theorem typesNodup_applyPrefWrites (uid : String) (writes : List (Nat × String × Value))
    (b : MemoryBank) (hb : typesNodup b) : typesNodup (applyPrefWrites b uid writes) := by
  induction writes generalizing b with
  | nil => exact hb
  | cons w rest ih => exact ih _ (typesNodup_add _ hb _ _ _ _)

theorem lastValue_applyPrefWrites (uid t : String) (writes : List (Nat × String × Value))
    (v : Value) (b : MemoryBank) (hb : typesNodup b) (h : lastWrite writes t = some v) :
    lastValue (userPrefs (applyPrefWrites b uid writes) uid) t = some v := by
  induction writes using List.reverseRecOn generalizing v with
  | nil => simp [lastWrite] at h
  | append_singleton ws w ih =>
    have happ : applyPrefWrites b uid (ws ++ [w]) =
        add_preference (applyPrefWrites b uid ws) w.1 uid w.2.1 w.2.2 := by
      unfold applyPrefWrites
      rw [List.foldl_append, List.foldl_cons, List.foldl_nil]
    rw [happ]
    have hnodup : typesNodup (applyPrefWrites b uid ws) := typesNodup_applyPrefWrites uid ws b hb
    have hlw : lastWrite (ws ++ [w]) t =
        if w.2.1 = t then some w.2.2 else lastWrite ws t := by
      unfold lastWrite
      rw [List.reverse_append]
      simp only [List.reverse_cons, List.reverse_nil, List.nil_append, List.singleton_append,
        List.find?_cons]
      by_cases hw : w.2.1 = t
      · simp [hw]
      · simp [hw]
    rw [hlw] at h
    by_cases hw : w.2.1 = t
    · rw [if_pos hw] at h
      obtain rfl : w.2.2 = v := by simpa using h
      subst hw
      rw [userPrefs_add_self]
      by_cases hany : (userPrefs (applyPrefWrites b uid ws) uid).any
          (fun p => p.preference_type = w.2.1) = true
      · rw [if_pos hany]
        exact lastValue_updateFirst_self _ _ _ _ (hnodup uid) hany
      · rw [if_neg hany, lastValue_append_single]
        simp
    · rw [if_neg hw] at h
      rw [userPrefs_add_self]
      by_cases hany : (userPrefs (applyPrefWrites b uid ws) uid).any
          (fun p => p.preference_type = w.2.1) = true
      · rw [if_pos hany, lastValue_updateFirst_ne _ _ _ _ _ (fun hh => hw hh.symm)]
        exact ih v h
      · rw [if_neg hany, lastValue_append_single, if_neg hw]
        exact ih v h

/-- C8: after any sequence of `add_preference` writes for a user (applied to
the fresh empty bank), the mapping returned by `get_preferences` — which is
also the `preferences` component of `get_user_context` — maps each written
type to the last value written for that type, whatever the interleaving of
writes across types. -/
theorem get_preferences_round_trip (writes : List (Nat × String × Value)) (uid t : String)
    (v : Value) (h : lastWrite writes t = some v) :
    lookupKV (get_preferences (applyPrefWrites MemoryBank.empty uid writes) uid) t = some v ∧
    (get_user_context (applyPrefWrites MemoryBank.empty uid writes) uid).preferences =
      get_preferences (applyPrefWrites MemoryBank.empty uid writes) uid := by
  refine ⟨?_, rfl⟩
  rw [lookup_get_preferences]
  exact lastValue_applyPrefWrites uid t writes v MemoryBank.empty typesNodup_empty h

/-- Witness for C8: three interleaved writes to two types; the "budget" type
reads back as its last-written value 75. -/
theorem get_preferences_round_trip_witness :
    lastWrite [(1, "budget", Value.num 50), (2, "cuisine", Value.str "Italian"),
        (3, "budget", Value.num 75)] "budget" = some (Value.num 75) ∧
    lookupKV (get_preferences (applyPrefWrites MemoryBank.empty "u"
        [(1, "budget", Value.num 50), (2, "cuisine", Value.str "Italian"),
         (3, "budget", Value.num 75)]) "u") "budget" = some (Value.num 75) :=
  ⟨rfl,
   (get_preferences_round_trip
     [(1, "budget", Value.num 50), (2, "cuisine", Value.str "Italian"),
      (3, "budget", Value.num 75)] "u" "budget" (Value.num 75) rfl).1⟩

/-! ### Claims C2 and C10 -/

/-- C2: on a stored session, `SessionService.get_session` evicts and returns absent
exactly when the idle time `now - last_accessed` exceeds the timeout, and
otherwise returns the session with `last_accessed` refreshed to `now`
(storing the refreshed session back). -/
theorem get_session_spec (svc : SessionService) (now : Nat) (sid : String) (s : Session)
    (h : lookupKV svc.sessions sid = some s) :
    (now - s.last_accessed > svc.session_timeout →
      SessionService.get_session svc now sid = (none, { svc with sessions := eraseKV svc.sessions sid })) ∧
    (¬ now - s.last_accessed > svc.session_timeout →
      SessionService.get_session svc now sid =
        (some { s with last_accessed := now },
         { svc with sessions := insertKV svc.sessions sid { s with last_accessed := now } })) := by
  constructor
  · intro hexp
    simp only [SessionService.get_session, h]
    rw [if_pos hexp]
    simp only [SessionService.delete_session, h]
  · intro hexp
    simp only [SessionService.get_session, h]
    rw [if_neg hexp]

/-- Witness for C2: with a 60-unit timeout and `last_accessed = 0`, a get at
time 200 evicts and returns absent, a get at time 30 refreshes. -/
theorem get_session_spec_witness :
    lookupKV svcLive.sessions "s1" = some sessA ∧
    SessionService.get_session svcLive 200 "s1" =
      (none, { svcLive with sessions := eraseKV svcLive.sessions "s1" }) ∧
    SessionService.get_session svcLive 30 "s1" =
      (some sessA30,
       { svcLive with sessions := insertKV svcLive.sessions "s1" sessA30 }) :=
  ⟨rfl,
   (get_session_spec svcLive 200 "s1" sessA rfl).1 (by decide),
   (get_session_spec svcLive 30 "s1" sessA rfl).2 (by decide)⟩

/-- C10: `SessionService.get_user_sessions` returns every stored session of the user —
with no idle-time test at all, so expired sessions are included — and
leaves the store untouched (no eviction, no `last_accessed` refresh); it
does not even take the current time. -/
theorem get_user_sessions_spec (svc : SessionService) (uid : String) :
    (SessionService.get_user_sessions svc uid).2 = svc ∧
    (SessionService.get_user_sessions svc uid).1 =
      (svc.sessions.map Prod.snd).filter (fun s => s.user_id = uid) ∧
    (∀ sid s, (sid, s) ∈ svc.sessions → s.user_id = uid →
      s ∈ (SessionService.get_user_sessions svc uid).1) := by
  refine ⟨rfl, rfl, ?_⟩
  intro sid s hmem huid
  simp only [SessionService.get_user_sessions, List.mem_filter, decide_eq_true_eq]
  exact ⟨List.mem_map.mpr ⟨(sid, s), hmem, rfl⟩, huid⟩

/-- Witness for C10: an expired session (idle 200 > timeout 60) is still
listed, and the state is returned unchanged. -/
theorem get_user_sessions_spec_witness :
    200 - sessA.last_accessed > svcLive.session_timeout ∧
    sessA ∈ (SessionService.get_user_sessions svcLive "u1").1 ∧
    (SessionService.get_user_sessions svcLive "u1").2 = svcLive :=
  ⟨by decide,
   (get_user_sessions_spec svcLive "u1").2.2 "s1" sessA (by decide) rfl,
   (get_user_sessions_spec svcLive "u1").1⟩

/-! ### Claim C5 -/

theorem lookupKV_append_of_none (a b : List (String × α)) (k : String)
    (h : lookupKV a k = none) : lookupKV (a ++ b) k = lookupKV b k := by
  induction a with
  | nil => rfl
  | cons hd t ih =>
    obtain ⟨k₀, v₀⟩ := hd
    by_cases hk : k₀ = k
    · subst hk
      simp at h
    · simp only [lookupKV, hk, if_false, List.cons_append] at h ⊢
      exact ih h

theorem recipes_dict_eq (lookup : String → Option Recipe) (meals : List Meal)
    (acc : List (String × Option Recipe))
    (hnd : (meals.map (fun m => m.name)).Nodup)
    (hdisj : ∀ m ∈ meals, lookupKV acc m.name = none) :
    meals.foldl (fun acc m => insertKV acc m.name (lookup m.name)) acc =
      acc ++ meals.map (fun m => (m.name, lookup m.name)) := by
  induction meals generalizing acc with
  | nil => simp
  | cons m rest ih =>
    simp only [List.map_cons, List.nodup_cons] at hnd
    rw [List.foldl_cons]
    rw [insertKV_of_not_mem _ _ _ (hdisj m (List.mem_cons_self m rest))]
    rw [ih _ hnd.2]
    · simp
    · intro m' hm'
      rw [lookupKV_append_of_none _ _ _ (hdisj m' (List.mem_cons_of_mem m hm'))]
      have hne : m.name ≠ m'.name := by
        intro hcon
        exact hnd.1 (hcon ▸ List.mem_map_of_mem (fun x => x.name) hm')
      simp [lookupKV, hne]

theorem lookup_map_pairing (lookup : String → Option Recipe) (meals : List Meal)
    (m : Meal) (hm : m ∈ meals) :
    lookupKV (meals.map (fun m' => (m'.name, lookup m'.name))) m.name =
      some (lookup m.name) := by
  induction meals with
  | nil => simp at hm
  | cons m₀ rest ih =>
    rcases List.mem_cons.mp hm with rfl | hm'
    · simp [lookupKV]
    · by_cases h : m₀.name = m.name
      · simp [lookupKV, h]
      · simp only [List.map_cons, lookupKV, h, if_false]
        exact ih hm'

/-- C5 counterexample: two meals sharing one name, both of whose lookups
succeed.  `recipes_found` is 1 (the dict is keyed by meal name), while the
number of input meals whose lookup succeeded is 2 — so `recipes_found` does
not equal the per-input-meal success count claimed. -/
theorem find_recipes_found_counterexample :
    (find_recipes_for_meals [mealDup1, mealDup2] (fun _ => some recipeA)).total_meals = 2 ∧
    (find_recipes_for_meals [mealDup1, mealDup2] (fun _ => some recipeA)).recipes_found = 1 ∧
    ([mealDup1, mealDup2].filter
      (fun m => ((fun _ => some recipeA) m.name).isSome)).length = 2 := by
  decide

/-- C5 (amended): when the meal names are pairwise distinct, each meal's
entry in `meal_recipes` is exactly its own lookup outcome (a timeout or
failure degrades only that meal to absent, leaving every other meal's entry
untouched), `total_meals` is the input length, and `recipes_found` equals
the number of input meals whose lookup succeeded.  With duplicate names the
dict collapses the duplicates and `recipes_found` counts distinct names
with a successful lookup instead. -/
theorem find_recipes_spec (meals : List Meal) (lookup : String → Option Recipe)
    (hnd : (meals.map (fun m => m.name)).Nodup) :
    (find_recipes_for_meals meals lookup).total_meals = meals.length ∧
    (∀ m ∈ meals,
      lookupKV (find_recipes_for_meals meals lookup).meal_recipes m.name =
        some (lookup m.name)) ∧
    (find_recipes_for_meals meals lookup).recipes_found =
      (meals.filter (fun m => (lookup m.name).isSome)).length := by
  have hdict : (find_recipes_for_meals meals lookup).meal_recipes =
      meals.map (fun m => (m.name, lookup m.name)) := by
    show meals.foldl (fun acc m => insertKV acc m.name (lookup m.name)) [] = _
    rw [recipes_dict_eq lookup meals [] hnd (fun m _ => rfl)]
    rfl
  refine ⟨rfl, ?_, ?_⟩
  · intro m hm
    rw [hdict]
    exact lookup_map_pairing lookup meals m hm
  · show ((find_recipes_for_meals meals lookup).meal_recipes.filter
      (fun p => p.2.isSome)).length = _
    rw [hdict, List.filter_map, List.length_map]
    rfl

/-- Witness for C5's amended theorem: two distinct-name meals, one lookup
succeeding and one timing out; the failed meal is absent, the other is
unaffected, and `recipes_found` counts exactly the successful one. -/
theorem find_recipes_spec_witness :
    ([mealC5a, mealC5b].map (fun m => m.name)).Nodup ∧
    lookupKV (find_recipes_for_meals [mealC5a, mealC5b] lookupC5).meal_recipes
      mealC5b.name = some (lookupC5 mealC5b.name) ∧
    lookupKV (find_recipes_for_meals [mealC5a, mealC5b] lookupC5).meal_recipes
      mealC5a.name = some (lookupC5 mealC5a.name) ∧
    (find_recipes_for_meals [mealC5a, mealC5b] lookupC5).recipes_found =
      ([mealC5a, mealC5b].filter (fun m => (lookupC5 m.name).isSome)).length :=
  ⟨by decide,
   (find_recipes_spec [mealC5a, mealC5b] lookupC5 (by decide)).2.1 mealC5b
     (by decide),
   (find_recipes_spec [mealC5a, mealC5b] lookupC5 (by decide)).2.1 mealC5a
     (by decide),
   (find_recipes_spec [mealC5a, mealC5b] lookupC5 (by decide)).2.2⟩

/-! ### Claim C1 -/

/-- C1: whenever the session resolves and `days ≥ 1`, the workflow returns
a plan with exactly `3 × days` meal entries, every entry's day number lies
in `[1, days]`, and each day has exactly one breakfast, one lunch and one
dinner. -/
theorem plan_meals_shape (st : OrchestratorState) (now : Nat) (pick : Nat → Nat)
    (lookup : String → Option Recipe)
    (shopping : List (String × Option Recipe) → ShoppingList)
    (nutrition : List (String × Recipe) → NutritionAnalysis)
    (sid : String) (days : Nat) (r p : List String) (inn isl : Bool) (s : Session)
    (hs : (SessionService.get_session st.session_service now sid).1 = some s) (hd : 1 ≤ days) :
    ∃ res,
      (Orchestrator.plan_meals st now pick lookup shopping nutrition sid days r p
        inn isl).1 = Except.ok res ∧
      res.meal_plan.meals.length = 3 * days ∧
      (∀ m ∈ res.meal_plan.meals, 1 ≤ m.day ∧ m.day ≤ days) ∧
      (∀ d, 1 ≤ d → d ≤ days → ∀ mt ∈ mealTypes,
        res.meal_plan.meals.countP (fun m => m.day == d && m.meal_type == mt) = 1) := by
  rcases hget : SessionService.get_session st.session_service now sid with ⟨o, svc₁⟩
  rw [hget] at hs
  cases o with
  | none => exact absurd hs (by simp)
  | some s' =>
    have hm := generate_mock_meal_plan_spec days r p pick
    simp only [Orchestrator.plan_meals, hget]
    exact ⟨_, rfl, hm.1, hm.2.1, hm.2.2⟩

/-- Witness for C1: live session, `days = 2`. -/
theorem plan_meals_shape_witness :
    (SessionService.get_session stLive.session_service 10 "s1").1 = some sessA10 ∧ 1 ≤ 2 ∧
    (∃ res,
      (Orchestrator.plan_meals stLive 10 pick0 lookup0 shopping0 nutrition0 "s1" 2 [] []
        true true).1 = Except.ok res ∧
      res.meal_plan.meals.length = 3 * 2 ∧
      (∀ m ∈ res.meal_plan.meals, 1 ≤ m.day ∧ m.day ≤ 2) ∧
      (∀ d, 1 ≤ d → d ≤ 2 → ∀ mt ∈ mealTypes,
        res.meal_plan.meals.countP (fun m => m.day == d && m.meal_type == mt) = 1)) :=
  ⟨rfl, by decide,
   plan_meals_shape stLive 10 pick0 lookup0 shopping0 nutrition0 "s1" 2 [] [] true true
     sessA10 rfl (by decide)⟩

/-! ### Claim C6 -/

theorem generate_mock_meal_plan_summary (days : Nat) (r p : List String) (pick : Nat → Nat) :
    (generate_mock_meal_plan days r p pick).summary =
      "Generated " ++ toString days ++ "-day meal plan with " ++
        toString (3 * days) ++ " meals" := by
  show "Generated " ++ toString days ++ "-day meal plan with " ++
      toString ((meal_slots days).mapIdx _).length ++ " meals" = _
  rw [List.length_mapIdx, meal_slots_length]

/-- C6 counterexample: the fallback plan is generated with `random.choice`
on the process-global RNG, so two invocations on the identical input
`(days = 1, no restrictions, no preferences)` with different RNG states
yield different plans (different meal names). -/
theorem mock_plan_counterexample :
    generate_mock_meal_plan 1 [] [] (fun _ => 0) ≠
      generate_mock_meal_plan 1 [] [] (fun _ => 1) := by
  decide

/-- C6 (amended): the fallback is deterministic only in structure — for a
fixed input, any two invocations agree on the `(day, meal_type)` sequence,
the meal count, the summary and the echoed days/restrictions/preferences —
while the meal names are drawn from the process-global RNG and may differ
between invocations. -/
theorem mock_plan_structure_deterministic (days : Nat) (r p : List String)
    (g₁ g₂ : Nat → Nat) :
    (generate_mock_meal_plan days r p g₁).meals.map (fun m => (m.day, m.meal_type)) =
      (generate_mock_meal_plan days r p g₂).meals.map (fun m => (m.day, m.meal_type)) ∧
    (generate_mock_meal_plan days r p g₁).meals.length =
      (generate_mock_meal_plan days r p g₂).meals.length ∧
    (generate_mock_meal_plan days r p g₁).summary =
      (generate_mock_meal_plan days r p g₂).summary ∧
    (generate_mock_meal_plan days r p g₁).days =
      (generate_mock_meal_plan days r p g₂).days ∧
    (generate_mock_meal_plan days r p g₁).dietary_restrictions =
      (generate_mock_meal_plan days r p g₂).dietary_restrictions ∧
    (generate_mock_meal_plan days r p g₁).preferences =
      (generate_mock_meal_plan days r p g₂).preferences := by
  refine ⟨?_, ?_, ?_, rfl, rfl, rfl⟩
  · rw [generate_mock_meal_plan_proj, generate_mock_meal_plan_proj]
  · rw [(generate_mock_meal_plan_spec days r p g₁).1,
      (generate_mock_meal_plan_spec days r p g₂).1]
  · rw [generate_mock_meal_plan_summary, generate_mock_meal_plan_summary]

/-! ### Claim C7 -/

/-- C7 counterexample: running the workflow for "u1" with `days = 2` and
`restrictions = ["vegetarian"]` stores the *string* "vegetarian" under
`dietary_restriction` (one `add_preference` per restriction), not the list
`["vegetarian"]` the claim asserts. -/
theorem run_workflow_restriction_counterexample :
    get_preference ((Orchestrator.plan_meals stC7 1 pick0 lookup0 shopping0 nutrition0
        "s1" 2 ["vegetarian"] [] true true).2).memory_bank "u1" "dietary_restriction" =
      some (Value.str "vegetarian") ∧
    get_preference ((Orchestrator.plan_meals stC7 1 pick0 lookup0 shopping0 nutrition0
        "s1" 2 ["vegetarian"] [] true true).2).memory_bank "u1" "dietary_restriction" ≠
      some (Value.listV ["vegetarian"]) := by
  exact ⟨rfl, by decide⟩

/-- C7 (amended): after the scenario's `run_workflow` call — whatever the
planner RNG, recipe lookup and auxiliary workers do — the preference store
holds exactly one `dietary_restriction` entry for "u1", whose value is the
restriction string "vegetarian" itself (each restriction is upserted
separately under this single type, so with several restrictions the last
one wins). -/
theorem run_workflow_restriction_upsert (pick : Nat → Nat)
    (lookup : String → Option Recipe)
    (shopping : List (String × Option Recipe) → ShoppingList)
    (nutrition : List (String × Recipe) → NutritionAnalysis) :
    get_preference ((Orchestrator.plan_meals stC7 1 pick lookup shopping nutrition
        "s1" 2 ["vegetarian"] [] true true).2).memory_bank "u1" "dietary_restriction" =
      some (Value.str "vegetarian") ∧
    (userPrefs ((Orchestrator.plan_meals stC7 1 pick lookup shopping nutrition
        "s1" 2 ["vegetarian"] [] true true).2).memory_bank "u1").map
      (fun q => (q.preference_type, q.value)) = [("dietary_restriction", Value.str "vegetarian")] := by
  exact ⟨rfl, rfl⟩

/-! ### Claim C9 -/

theorem get_session_timeout_frame (svc : SessionService) (now : Nat) (sid : String) :
    ((SessionService.get_session svc now sid).2).session_timeout = svc.session_timeout := by
  cases hl : lookupKV svc.sessions sid with
  | none => simp [SessionService.get_session, hl]
  | some s =>
    by_cases hexp : now - s.last_accessed > svc.session_timeout
    · simp [SessionService.get_session, hl, hexp, SessionService.delete_session]
    · simp [SessionService.get_session, hl, hexp]

theorem get_session_other_frame (svc : SessionService) (now : Nat) (sid sid' : String)
    (h : sid' ≠ sid) :
    lookupKV ((SessionService.get_session svc now sid).2).sessions sid' =
      lookupKV svc.sessions sid' := by
  cases hl : lookupKV svc.sessions sid with
  | none => simp [SessionService.get_session, hl]
  | some s =>
    by_cases hexp : now - s.last_accessed > svc.session_timeout
    · simp only [SessionService.get_session, hl, if_pos hexp,
        SessionService.delete_session]
      exact lookupKV_eraseKV_ne _ _ _ h
    · simp only [SessionService.get_session, hl, if_neg hexp]
      exact lookupKV_insertKV_ne _ _ _ _ h

/-- C9 (amended): when the session does not resolve (absent or expired),
`plan_meals` surfaces the definitive "Session ... not found" error, no
workflow step runs, the preference and meal-history stores are unchanged,
and the session store undergoes only the change induced by the lookup
itself: an absent id leaves the whole state unchanged, an expired session
is evicted while every other session (and the timeout) is untouched. -/
theorem plan_meals_not_found (st : OrchestratorState) (now : Nat) (pick : Nat → Nat)
    (lookup : String → Option Recipe)
    (shopping : List (String × Option Recipe) → ShoppingList)
    (nutrition : List (String × Recipe) → NutritionAnalysis)
    (sid : String) (days : Nat) (r p : List String) (inn isl : Bool)
    (hg : (SessionService.get_session st.session_service now sid).1 = none) :
    Orchestrator.plan_meals st now pick lookup shopping nutrition sid days r p inn isl =
      (Except.error ("Session " ++ sid ++ " not found"),
       { st with session_service := (SessionService.get_session st.session_service now sid).2 }) ∧
    ((Orchestrator.plan_meals st now pick lookup shopping nutrition sid days r p
        inn isl).2).memory_bank = st.memory_bank ∧
    ((Orchestrator.plan_meals st now pick lookup shopping nutrition sid days r p
        inn isl).2).session_service.session_timeout = st.session_service.session_timeout ∧
    (lookupKV st.session_service.sessions sid = none →
      (Orchestrator.plan_meals st now pick lookup shopping nutrition sid days r p
        inn isl).2 = st) ∧
    (∀ sid', sid' ≠ sid →
      lookupKV ((Orchestrator.plan_meals st now pick lookup shopping nutrition sid days
        r p inn isl).2).session_service.sessions sid' =
        lookupKV st.session_service.sessions sid') := by
  rcases hget : SessionService.get_session st.session_service now sid with ⟨o, svc₁⟩
  rw [hget] at hg
  cases o with
  | some s => exact absurd hg (by simp)
  | none =>
    have hred : Orchestrator.plan_meals st now pick lookup shopping nutrition sid days r p
        inn isl =
        (Except.error ("Session " ++ sid ++ " not found"),
         { st with session_service := svc₁ }) := by
      simp only [Orchestrator.plan_meals, hget]
    refine ⟨by rw [hred], by rw [hred], ?_, ?_, ?_⟩
    · rw [hred]
      have := get_session_timeout_frame st.session_service now sid
      rw [hget] at this
      exact this
    · intro habs
      rw [hred]
      have : svc₁ = st.session_service := by
        have h2 : SessionService.get_session st.session_service now sid =
            (none, st.session_service) := by
          simp [SessionService.get_session, habs]
        rw [hget] at h2
        exact (Prod.mk.injEq _ _ _ _).mp h2 |>.2
      rw [this]
    · intro sid' hne
      rw [hred]
      have := get_session_other_frame st.session_service now sid sid' hne
      rw [hget] at this
      exact this

/-- C9 counterexample: `plan_meals` at time 100 on the expired session "s1"
(idle 100 > timeout 60) fails with "session not found" but does *not* leave
the session store unchanged — the expired session is evicted by the lookup. -/
theorem plan_meals_not_found_counterexample :
    (Orchestrator.plan_meals stC9 100 pick0 lookup0 shopping0 nutrition0 "s1" 2 [] []
      true true).1 = Except.error "Session s1 not found" ∧
    ((Orchestrator.plan_meals stC9 100 pick0 lookup0 shopping0 nutrition0 "s1" 2 [] []
      true true).2).session_service.sessions ≠ stC9.session_service.sessions := by
  decide

/-- Witness for C9's amended theorem: an absent session id on a fresh
orchestrator; the error is surfaced and the state is fully unchanged. -/
theorem plan_meals_not_found_witness :
    (SessionService.get_session OrchestratorState.init.session_service 5 "sX").1 = none ∧
    Orchestrator.plan_meals OrchestratorState.init 5 pick0 lookup0 shopping0 nutrition0
      "sX" 1 [] [] true true =
      (Except.error ("Session " ++ "sX" ++ " not found"),
       { OrchestratorState.init with
          session_service :=
            (SessionService.get_session OrchestratorState.init.session_service 5 "sX").2 }) ∧
    lookupKV OrchestratorState.init.session_service.sessions "sX" = none ∧
    (Orchestrator.plan_meals OrchestratorState.init 5 pick0 lookup0 shopping0 nutrition0
      "sX" 1 [] [] true true).2 = OrchestratorState.init :=
  ⟨rfl,
   (plan_meals_not_found OrchestratorState.init 5 pick0 lookup0 shopping0 nutrition0
     "sX" 1 [] [] true true rfl).1,
   rfl,
   (plan_meals_not_found OrchestratorState.init 5 pick0 lookup0 shopping0 nutrition0
     "sX" 1 [] [] true true rfl).2.2.2.1 rfl⟩

end MealPlanning

